import Mathlib

/-!
Formal model of the query/aggregation layer of the Titanic data app
(`src/app.py`): the endpoints `stats`, `by_class`, `by_gender`, `by_port`,
`by_age_group`, `heatmap` and `passengers`, operating on the normalized
in-memory table.

Modelling conventions (shallow embedding):
  * a pandas DataFrame is a `Table`: a `Schema` recording which columns are
    present plus a list of `Row`s whose fields are `Option`-valued
    (`none` = NaN / pd.NA);
  * Python floats are modelled by `ℚ` (the claims under study concern
    bucketing, counting, sorting and rounding, not bit-level float effects);
  * Python `round` is round-half-to-even (`pyRound`);
  * an endpoint that can raise (KeyError on a missing column, ValueError
    from `round(nan)`, FastAPI request validation) returns `Except Err`;
  * `pd.cut(..., bins, labels)` assigns to left-open right-closed bins
    `(bins[k], bins[k+1]]` (the pandas default `right=True`), values outside
    every bin are dropped;
  * boolean masks with missing values treat NA as False (pandas nullable
    boolean indexing), so `df["Survived"]==1` keeps only rows whose value is
    a non-null 1;
  * `Series.get(col, default)` yields the default only when the column is
    absent; a present-but-null value is returned as the null itself.
-/

namespace TitanicApp

/-- Python `round` with no digits: round half to even, on exact rationals. -/
def pyRound (q : ℚ) : ℤ :=
  if q - ⌊q⌋ < 1/2 then ⌊q⌋
  else if 1/2 < q - ⌊q⌋ then ⌊q⌋ + 1
  else if ⌊q⌋ % 2 = 0 then ⌊q⌋ else ⌊q⌋ + 1

/-- Python `round(x, d)`: scale, round half to even, unscale. -/
def roundTo (d : ℕ) (q : ℚ) : ℚ := (pyRound (q * 10 ^ d) : ℚ) / 10 ^ d

/-- Is `n` a prefix of `h` (on character lists)? -/
def chPre : List Char → List Char → Bool
  | [], _ => true
  | _ :: _, [] => false
  | a :: as, b :: bs => a == b && chPre as bs

/-- Does `h` contain `n` as a contiguous sublist? -/
def chSub (n : List Char) : List Char → Bool
  | [] => n.isEmpty
  | b :: bs => chPre n (b :: bs) || chSub n bs

/-- Substring containment of strings, as in `str.contains` on plain text. -/
def strContains (hay needle : String) : Bool := chSub needle.toList hay.toList

/-- Python whitespace, as stripped by `str.strip()`. -/
def wsChar (c : Char) : Bool :=
  c == ' ' || c == '\t' || c == '\n' || c == '\r' || c == '\x0b' || c == '\x0c'

/-- Drop leading whitespace characters. -/
def dropLeadingWs : List Char → List Char
  | [] => []
  | c :: cs => if wsChar c then dropLeadingWs cs else c :: cs

/-- Python `str.strip()`: drop whitespace from both ends. -/
def pyStrip (s : String) : String :=
  String.mk ((dropLeadingWs (dropLeadingWs s.data.reverse).reverse))

/-- Errors an endpoint can surface: FastAPI request validation (422),
pandas KeyError on a missing column, Python ValueError (`round(nan)`). -/
inductive Err
  | validationErr
  | keyErr
  | valueErr
deriving DecidableEq

/-- Which columns the loaded CSV actually has (`c in df.columns` checks). -/
structure Schema where
  hasPassengerId : Bool
  hasSurvived : Bool
  hasPclass : Bool
  hasName : Bool
  hasSex : Bool
  hasAge : Bool
  hasFare : Bool
  hasBoarded : Bool
  hasEmbarked : Bool
  hasDestination : Bool
  hasLifeboat : Bool
  hasHometown : Bool
deriving DecidableEq

/-- One normalized row; `none` models NaN / pd.NA. -/
structure Row where
  passengerId : Option ℤ
  survived : Option ℤ
  pclass : Option ℤ
  name : Option String
  sex : Option String
  age : Option ℚ
  fare : Option ℚ
  boarded : Option String
  embarked : Option String
  destination : Option String
  lifeboat : Option String
  hometown : Option String
deriving DecidableEq

/-- A row with every field null. -/
def emptyRow : Row := ⟨none, none, none, none, none, none, none, none, none, none, none, none⟩

/-- The cached normalized DataFrame: schema plus ordered rows. -/
structure Table where
  schema : Schema
  rows : List Row
deriving DecidableEq

/-- Mean of a column's non-null values; `none` when there are none
(pandas `mean` of an all-NaN / empty column is NaN). -/
def meanOpt (l : List ℚ) : Option ℚ :=
  if l.isEmpty then none else some (l.sum / l.length)

/-- Max of a column's non-null values; `none` when there are none. -/
def maxOpt (l : List ℚ) : Option ℚ :=
  match l with
  | [] => none
  | x :: xs => some (xs.foldl max x)

/-- Output shape of `/api/stats`. -/
structure StatsOut where
  total : ℕ
  survivors : ℤ
  lost : ℤ
  surv_rate : ℚ
  avg_age : Option ℚ
  avg_fare : Option ℚ
  max_fare : Option ℚ
deriving DecidableEq

/-- The `/api/stats` endpoint (`stats` in `src/app.py`).
`df["Survived"]` raises KeyError when the column is absent; the sum skips
nulls; the rate division is guarded by `if total`. -/
def stats (t : Table) : Except Err StatsOut :=
  if t.schema.hasSurvived = false then .error .keyErr
  else
    let total := t.rows.length
    let surv := (t.rows.filterMap (·.survived)).sum
    .ok
      { total := total
        survivors := surv
        lost := total - surv
        surv_rate := if total ≠ 0 then roundTo 1 ((surv : ℚ) / total * 100) else 0
        avg_age := if t.schema.hasAge then (meanOpt (t.rows.filterMap (·.age))).map (roundTo 1) else none
        avg_fare := if t.schema.hasFare then (meanOpt (t.rows.filterMap (·.fare))).map (roundTo 2) else none
        max_fare := if t.schema.hasFare then (maxOpt (t.rows.filterMap (·.fare))).map (roundTo 2) else none }

/-- Output entry of `/api/by-class`. -/
structure ClassEntry where
  cls : ℤ
  label : String
  total : ℕ
  survived : ℤ
  pct : ℤ
deriving DecidableEq

/-- One iteration of the `by_class` loop for a given class value: the
`Survived` column is only touched when the class group is non-empty, and
`round(mean()*100)` raises ValueError when every value of the group is
null (mean of an empty selection is NaN). -/
def classEntry (t : Table) (c : ℤ) (label : String) : Except Err (Option ClassEntry) :=
  let sub := t.rows.filter (fun r => r.pclass == some c)
  if sub.length = 0 then .ok none
  else if t.schema.hasSurvived = false then .error .keyErr
  else
    let sv := sub.filterMap (·.survived)
    if sv.length = 0 then .error .valueErr
    else .ok (some ⟨c, label, sub.length, sv.sum, pyRound ((sv.sum : ℚ) / sv.length * 100)⟩)

/-- The `/api/by-class` endpoint: classes 1, 2, 3 in order, empty classes
omitted. `df["Pclass"]` raises KeyError when the column is absent. -/
def by_class (t : Table) : Except Err (List ClassEntry) :=
  if t.schema.hasPclass = false then .error .keyErr
  else do
    let e1 ← classEntry t 1 "1st Class"
    let e2 ← classEntry t 2 "2nd Class"
    let e3 ← classEntry t 3 "3rd Class"
    .ok ([e1, e2, e3].filterMap id)

/-- Output entry of `/api/by-gender`. -/
structure GenderEntry where
  sex : String
  label : String
  survived : ℤ
  lost : ℤ
deriving DecidableEq

/-- One iteration of the `by_gender` loop: `Survived` is only touched when
the gender group is non-empty. -/
def genderEntry (t : Table) (sx : String) (label : String) : Except Err (Option GenderEntry) :=
  let sub := t.rows.filter (fun r => r.sex == some sx)
  if sub.length = 0 then .ok none
  else if t.schema.hasSurvived = false then .error .keyErr
  else
    let s := (sub.filterMap (·.survived)).sum
    .ok (some ⟨sx, label, s, (sub.length : ℤ) - s⟩)

/-- The `/api/by-gender` endpoint: female then male, empty groups omitted.
`df["Sex"]` raises KeyError when the column is absent. -/
def by_gender (t : Table) : Except Err (List GenderEntry) :=
  if t.schema.hasSex = false then .error .keyErr
  else do
    let f ← genderEntry t "female" "Female"
    let m ← genderEntry t "male" "Male"
    .ok ([f, m].filterMap id)

/-- Output entry of `/api/by-port`. -/
structure PortEntry where
  port : String
  count : ℕ
  pct : ℤ
deriving DecidableEq

/-- The boarding-port value of a row under `_port_col`: the `Boarded`
column when present, else `Embarked`. -/
def portVal (t : Table) (r : Row) : Option String :=
  if t.schema.hasBoarded then r.boarded else r.embarked

/-- Lexicographic strict order on character lists (used only to fix the
deterministic ascending key order that `groupby` produces). -/
def chLt : List Char → List Char → Bool
  | [], [] => false
  | [], _ :: _ => true
  | _ :: _, [] => false
  | a :: as, b :: bs => a < b || (a == b && chLt as bs)

/-- Total Boolean comparison on strings. -/
def strLeB (a b : String) : Bool := !(chLt b.toList a.toList)

/-- The `/api/by-port` endpoint: group the rows by the port column
(`groupby` drops null keys and yields keys in ascending order), drop keys
that are blank after stripping, compute `count` and
`round(count/total*100)` with the full table length as denominator, then
sort descending by count (Python's stable sort on the negated count). -/
def by_port (t : Table) : List PortEntry :=
  if (t.schema.hasBoarded || t.schema.hasEmbarked) = false then []
  else
    let vals := t.rows.filterMap (portVal t)
    let keys := (List.insertionSort (fun a b => strLeB a b = true) vals.dedup).filter
      (fun s => pyStrip s ≠ "")
    let total := t.rows.length
    let out := keys.map (fun k =>
      PortEntry.mk k (vals.count k) (pyRound ((vals.count k : ℚ) / total * 100)))
    List.insertionSort (fun a b : PortEntry => b.count ≤ a.count) out

/-- Output entry of `/api/by-age-group`. -/
structure AgeEntry where
  group : String
  total : ℕ
  survived : ℤ
  pct : ℤ
deriving DecidableEq

/-- Bin edges passed to `pd.cut` in `by_age_group`. -/
def agBins : List ℚ := [0, 12, 18, 35, 60, 120]

/-- Bucket labels passed to `pd.cut` in `by_age_group`. -/
def agLabels : List String :=
  ["Child (0–12)", "Teen (13–18)", "Young Adult (19–35)", "Adult (36–60)", "Senior (61+)"]

/-- Which bin `pd.cut` assigns to an age: the `k` with
`bins[k] < a ≤ bins[k+1]` (pandas default `right=True`), `none` when the
value lies outside every bin. -/
def cutIdx (a : ℚ) : Option ℕ :=
  (List.range 5).find? (fun k => decide (agBins.getD k 0 < a ∧ a ≤ agBins.getD (k + 1) 0))

/-- The bin of a row: null ages are dropped (`dropna(subset=["Age"])`). -/
def rowAgeGrp (r : Row) : Option ℕ := r.age.bind cutIdx

/-- One iteration of the `by_age_group` comprehension for bucket `k`:
empty buckets are skipped before `Survived` is touched; `round(mean()*100)`
raises ValueError when the group's `Survived` values are all null. -/
def ageEntry (t : Table) (k : ℕ) : Except Err (Option AgeEntry) :=
  let sub := t.rows.filter (fun r => rowAgeGrp r == some k)
  if sub.length = 0 then .ok none
  else if t.schema.hasSurvived = false then .error .keyErr
  else
    let sv := sub.filterMap (·.survived)
    if sv.length = 0 then .error .valueErr
    else .ok (some ⟨agLabels.getD k "", sub.length, sv.sum, pyRound ((sv.sum : ℚ) / sv.length * 100)⟩)

/-- The `/api/by-age-group` endpoint: buckets in label order, empty buckets
omitted; returns `[]` when the table has no `Age` column. The bucket
iterations run in order and the first raised error propagates. -/
def by_age_group (t : Table) : Except Err (List AgeEntry) :=
  if t.schema.hasAge = false then .ok []
  else
    Except.bind (ageEntry t 0) fun e0 =>
    Except.bind (ageEntry t 1) fun e1 =>
    Except.bind (ageEntry t 2) fun e2 =>
    Except.bind (ageEntry t 3) fun e3 =>
    Except.bind (ageEntry t 4) fun e4 =>
    .ok ([e0, e1, e2, e3, e4].filterMap id)

/-- Output point of `/api/heatmap`. -/
structure HeatPoint where
  fare : ℚ
  survived : Option ℤ
  cls : Option ℤ
deriving DecidableEq

/-- Comparison on optional sort keys: nulls sort last
(`na_position="last"`), non-null keys by the given order. -/
def optKeyLe {α : Type} (le : α → α → Bool) (asc : Bool) : Option α → Option α → Bool
  | none, none => true
  | none, some _ => false
  | some _, none => true
  | some x, some y => if asc then le x y else le y x

/-- Row ordering used by `sort_values("Fare")` in `heatmap`. -/
def fareLe (a b : Row) : Prop :=
  optKeyLe (fun x y : ℚ => decide (x ≤ y)) true a.fare b.fare = true

instance : DecidableRel fareLe := fun _ _ => instDecidableEqBool _ _

/-- The fare-filtered, fare-sorted frame built by `heatmap`. -/
def heatRowsSorted (t : Table) : List Row :=
  List.insertionSort fareLe (t.rows.filter (fun r => r.fare.isSome))

/-- Projection of a frame row to a heatmap point: fare rounded to 2
decimals, survived and class as nullable ints. -/
def mkHeatPoint (r : Row) : HeatPoint := ⟨roundTo 2 (r.fare.getD 0), r.survived, r.pclass⟩

/-- The `/api/heatmap` endpoint. FastAPI `Query(200, le=500)` rejects any
request with `n > 500` (422), it does not clamp. The frame selection
`df[["Fare","Survived","Pclass"]]` raises KeyError when any of the three
columns is absent. When more than `n` rows carry a fare, the rows at
indices `int(i*len/n)` for `i in range(n)` are taken (an empty selection
when `n ≤ 0`, since `range` of a non-positive bound is empty). -/
def heatmap (t : Table) (n : ℤ) : Except Err (List HeatPoint) :=
  if 500 < n then .error .validationErr
  else if (t.schema.hasFare && t.schema.hasSurvived && t.schema.hasPclass) = false then
    .error .keyErr
  else
    let hm := heatRowsSorted t
    if (hm.length : ℤ) ≤ n then .ok (hm.map mkHeatPoint)
    else .ok (((List.range n.toNat).filterMap (fun i => hm[i * hm.length / n.toNat]?)).map mkHeatPoint)

/-- The `survived` query parameter of `/api/passengers`. -/
inductive SurvFilter
  | all
  | survived
  | lost
deriving DecidableEq

/-- Case-insensitive substring test of the query against one text field;
null fields never match (`na=False`). -/
def qFieldMatch (ql : String) (v : Option String) : Bool :=
  match v with
  | some s => chSub ql.toList s.toLower.toList
  | none => false

/-- The free-text mask: OR of the per-column masks over whichever of
`Name`, `Hometown`, `Destination` are present. -/
def qMatch (t : Table) (ql : String) (r : Row) : Bool :=
  (t.schema.hasName && qFieldMatch ql r.name) ||
  (t.schema.hasHometown && qFieldMatch ql r.hometown) ||
  (t.schema.hasDestination && qFieldMatch ql r.destination)

/-- The combined row mask of `/api/passengers`: free-text (skipped when
the query is empty), survival filter (`==1` / `==0`, nulls excluded) and
class filter (nulls excluded). -/
def rowMatch (t : Table) (q : String) (sf : SurvFilter) (cf : Option ℤ) (r : Row) : Bool :=
  (q == "" || qMatch t q.toLower r) &&
  (match sf with
   | .all => true
   | .survived => r.survived == some 1
   | .lost => r.survived == some 0) &&
  (match cf with
   | none => true
   | some c => r.pclass == some c)

/-- The filtered frame `df[mask]`. -/
def filteredRows (t : Table) (q : String) (sf : SurvFilter) (cf : Option ℤ) : List Row :=
  t.rows.filter (rowMatch t q sf cf)

/-- A sort key as read from one of the sortable columns. -/
inductive SKey
  | kInt (v : Option ℤ)
  | kRat (v : Option ℚ)
  | kStr (v : Option String)
  | kNone

/-- Is the requested sort field a real column of the table
(`sort_by in filtered.columns`)? -/
def hasCol (t : Table) (c : String) : Bool :=
  match c with
  | "PassengerId" => t.schema.hasPassengerId
  | "Survived" => t.schema.hasSurvived
  | "Pclass" => t.schema.hasPclass
  | "Name" => t.schema.hasName
  | "Sex" => t.schema.hasSex
  | "Age" => t.schema.hasAge
  | "Fare" => t.schema.hasFare
  | "Boarded" => t.schema.hasBoarded
  | "Embarked" => t.schema.hasEmbarked
  | "Destination" => t.schema.hasDestination
  | "Lifeboat" => t.schema.hasLifeboat
  | "Hometown" => t.schema.hasHometown
  | _ => false

/-- Read a row's key for the requested sort column. -/
def sortVal (c : String) (r : Row) : SKey :=
  match c with
  | "PassengerId" => .kInt r.passengerId
  | "Survived" => .kInt r.survived
  | "Pclass" => .kInt r.pclass
  | "Name" => .kStr r.name
  | "Sex" => .kStr r.sex
  | "Age" => .kRat r.age
  | "Fare" => .kRat r.fare
  | "Boarded" => .kStr r.boarded
  | "Embarked" => .kStr r.embarked
  | "Destination" => .kStr r.destination
  | "Lifeboat" => .kStr r.lifeboat
  | "Hometown" => .kStr r.hometown
  | _ => .kNone

/-- Compare two sort keys: nulls last regardless of direction, non-null
keys by the column's order, reversed when descending. -/
def skeyLe (asc : Bool) : SKey → SKey → Bool
  | .kInt a, .kInt b => optKeyLe (fun x y : ℤ => decide (x ≤ y)) asc a b
  | .kRat a, .kRat b => optKeyLe (fun x y : ℚ => decide (x ≤ y)) asc a b
  | .kStr a, .kStr b => optKeyLe strLeB asc a b
  | _, _ => true

/-- The `sort_values(sort_by, ascending, na_position="last")` step of
`/api/passengers`: a deterministic sort by the requested column, or the
frame unchanged when the name is not a real column. -/
def sortedRows (t : Table) (sb : String) (asc : Bool) (l : List Row) : List Row :=
  if hasCol t sb then
    List.insertionSort (fun a b => skeyLe asc (sortVal sb a) (sortVal sb b) = true) l
  else l

/-- Display shape of a listed passenger. Note `Series.get(col, default)`
yields the default only when the column is absent from the frame; a null
value in a present column is passed through (not replaced). -/
structure DispRow where
  id : Option ℤ
  name : Option String
  sex : Option String
  age : Option ℚ
  cls : Option ℤ
  boarded : Option String
  dest : Option String
  lifeboat : Option String
  fare : Option ℚ
  survived : Option ℤ
  hometown : Option String
deriving DecidableEq

/-- The per-row display mapping of `/api/passengers`. -/
def displayRow (t : Table) (r : Row) : DispRow where
  id := if t.schema.hasPassengerId then r.passengerId else none
  name := if t.schema.hasName then r.name else some "Unknown"
  sex := if t.schema.hasSex then r.sex else some ""
  age := if t.schema.hasAge then r.age else none
  cls := if t.schema.hasPclass then r.pclass else none
  boarded :=
    if t.schema.hasBoarded then r.boarded
    else if t.schema.hasEmbarked then r.embarked
    else none
  dest := if t.schema.hasDestination then r.destination else none
  lifeboat := if t.schema.hasLifeboat then r.lifeboat else none
  fare := (if t.schema.hasFare then r.fare else none).map (roundTo 2)
  survived := if t.schema.hasSurvived then r.survived else none
  hometown := if t.schema.hasHometown then r.hometown else none

/-- Output shape of `/api/passengers`. -/
structure PassOut where
  total : ℕ
  page : ℕ
  per_page : ℕ
  total_pages : ℕ
  rows : List DispRow
deriving DecidableEq

/-- The page count `max(1, math.ceil(total/per_page))`. -/
def ceilPages (total pp : ℕ) : ℕ := max 1 ((total + pp - 1) / pp)

/-- The body of `/api/passengers` after request validation: filter, sort,
count, clamp the page, slice, map to the display shape. -/
def passengersOk (t : Table) (q : String) (sf : SurvFilter) (cf : Option ℤ)
    (page pp : ℕ) (sb : String) (asc : Bool) : PassOut :=
  let sr := sortedRows t sb asc (filteredRows t q sf cf)
  let total := sr.length
  let tp := ceilPages total pp
  let pg := min page tp
  ⟨total, pg, pp, tp, ((sr.drop ((pg - 1) * pp)).take pp).map (displayRow t)⟩

/-- The `/api/passengers` endpoint. FastAPI validates `page ≥ 1` and
`1 ≤ per_page ≤ 200`; a survival filter needs the `Survived` column and a
class filter the `Pclass` column (KeyError otherwise). -/
def passengers (t : Table) (q : String) (sf : SurvFilter) (cf : Option ℤ)
    (page pp : ℕ) (sb : String) (asc : Bool) : Except Err PassOut :=
  if page < 1 ∨ pp < 1 ∨ 200 < pp then .error .validationErr
  else if sf ≠ .all ∧ t.schema.hasSurvived = false then .error .keyErr
  else if cf ≠ none ∧ t.schema.hasPclass = false then .error .keyErr
  else .ok (passengersOk t q sf cf page pp sb asc)

end TitanicApp

deriving instance DecidableEq for Except

namespace TitanicApp

/-! ### Concrete sample tables used by witnesses and counterexamples -/

/-- A schema with every modelled column present except `Embarked`
(the dataset carries `Boarded`). -/
def fullSchema : Schema :=
  ⟨true, true, true, true, true, true, true, true, false, true, true, true⟩

/-- First sample passenger. -/
def rowA : Row :=
  { emptyRow with
      passengerId := some 1, survived := some 1, pclass := some 1,
      name := some "Alice Doe", sex := some "female", age := some 30,
      fare := some 10, boarded := some "Southampton", hometown := some "London" }

/-- Second sample passenger. -/
def rowB : Row :=
  { emptyRow with
      passengerId := some 2, survived := some 0, pclass := some 3,
      name := some "Bob Roe", sex := some "male", age := some 12,
      fare := some 20, boarded := some "Cherbourg" }

/-- A two-row sample table. -/
def tSample : Table := ⟨fullSchema, [rowA, rowB]⟩

/-- The sample table with no rows (header-only CSV). -/
def tEmpty : Table := ⟨fullSchema, []⟩

/-- A one-row sample table (only `rowA`). -/
def tOne : Table := ⟨fullSchema, [rowA]⟩

/-- Schema lacking the `Survived` column only. -/
def noSurvSchema : Schema :=
  ⟨true, false, true, true, true, true, true, true, false, true, true, true⟩

/-- A row whose class is outside \{1,2,3\} and whose sex is outside
\{female, male\}. -/
def rowC : Row := { emptyRow with pclass := some 4, sex := some "other" }

/-- A table without `Survived` in which every reported group is empty. -/
def tNoSurv : Table := ⟨noSurvSchema, [rowC]⟩

/-- A row with a present-but-null `Name` value (and null `Sex`). -/
def rowD : Row :=
  { emptyRow with passengerId := some 3, survived := some 1, pclass := some 2, fare := some 5 }

/-- A table whose `Name` column is present but null in its only row. -/
def tNullName : Table := ⟨fullSchema, [rowD]⟩

/-- Schema with only the `Boarded` column. -/
def portSchema : Schema :=
  ⟨false, false, false, false, false, false, false, true, false, false, false, false⟩

/-- A row carrying only a boarding port. -/
def pRow (s : String) : Row := { emptyRow with boarded := some s }

/-- Six rows over three ports with counts 1, 1 and 4. -/
def tPorts : Table :=
  ⟨portSchema, [pRow "A", pRow "B", pRow "C", pRow "C", pRow "C", pRow "C"]⟩

/-- The grouped port output before the final count sort: ascending distinct
non-blank keys with their group sizes and percentages. -/
def byPortPre (t : Table) : List PortEntry :=
  ((List.insertionSort (fun a b => strLeB a b = true)
      (t.rows.filterMap (portVal t)).dedup).filter (fun s => pyStrip s ≠ "")).map
    (fun k => PortEntry.mk k ((t.rows.filterMap (portVal t)).count k)
      (pyRound (((t.rows.filterMap (portVal t)).count k : ℚ) / t.rows.length * 100)))

/-- Lower edge of bucket `k`, as the claim's interval language. -/
def bucketLo : ℕ → ℚ
  | 0 => 0
  | 1 => 12
  | 2 => 18
  | 3 => 35
  | _ => 60

/-- Upper edge of bucket `k`. -/
def bucketHi : ℕ → ℚ
  | 0 => 12
  | 1 => 18
  | 2 => 35
  | 3 => 60
  | _ => 120

/-- Bucket membership stated directly as a left-open right-closed
interval on the age: `bucketLo k < age ≤ bucketHi k`; null ages never
belong to a bucket. -/
def inBucketB (k : ℕ) (r : Row) : Bool :=
  match r.age with
  | some a => decide (bucketLo k < a ∧ a ≤ bucketHi k)
  | none => false

/-- A one-row table whose passenger is exactly 12 years old. -/
def rowAge12 : Row := { emptyRow with age := some 12, survived := some 1 }

/-- Table for the bucket-boundary counterexample. -/
def tAge12 : Table := ⟨fullSchema, [rowAge12]⟩

/-- A one-row table whose passenger is exactly 0 years old. -/
def rowAge0 : Row := { emptyRow with age := some 0, survived := some 1 }

/-- Table for the lower-edge counterexample. -/
def tAge0 : Table := ⟨fullSchema, [rowAge0]⟩

/-! ### Shared helper lemmas -/

/-- Concatenating the consecutive `pp`-sized slices `0..k-1` of a list
reproduces its first `k*pp` elements. -/
theorem flatten_chunks {α : Type} (l : List α) (pp : ℕ) :
    ∀ k, ((List.range k).map (fun i => (l.drop (i * pp)).take pp)).flatten = l.take (k * pp) := by
  intro k
  induction k with
  | zero => simp
  | succ k ih =>
    rw [List.range_succ, List.map_append, List.flatten_append, ih]
    simp [Nat.succ_mul, List.take_add]

/-- The page count is at least 1. -/
theorem ceilPages_pos (total pp : ℕ) : 1 ≤ ceilPages total pp := by
  unfold ceilPages; omega

/-- `ceilPages total pp` pages of size `pp` cover all `total` rows. -/
theorem le_ceilPages_mul (total pp : ℕ) (h : 1 ≤ pp) : total ≤ ceilPages total pp * pp := by
  unfold ceilPages
  rcases Nat.eq_zero_or_pos total with h0 | h0
  · omega
  · have hd : 1 ≤ (total + pp - 1) / pp := by
      rw [Nat.one_le_div_iff h]; omega
    rw [Nat.max_eq_right hd]
    have h1 := Nat.div_add_mod (total + pp - 1) pp
    have h2 : (total + pp - 1) % pp < pp := Nat.mod_lt _ h
    rw [Nat.mul_comm]
    generalize hP : pp * ((total + pp - 1) / pp) = P at h1 ⊢
    omega

/-- One fewer page would not cover the rows (unless there is a single,
possibly empty, page). -/
theorem ceilPages_min (total pp : ℕ) (h : 1 ≤ pp) :
    (ceilPages total pp - 1) * pp < total ∨ ceilPages total pp = 1 := by
  unfold ceilPages
  rcases Nat.eq_zero_or_pos total with h0 | h0
  · right
    subst h0
    have hz : (0 + pp - 1) / pp = 0 := Nat.div_eq_of_lt (by omega)
    rw [hz]
    omega
  · rcases Nat.lt_or_ge (total + pp - 1) (2 * pp) with hsmall | hbig
    · right
      have : (total + pp - 1) / pp < 2 := by
        rw [Nat.div_lt_iff_lt_mul h]; omega
      omega
    · left
      have hd : 1 ≤ (total + pp - 1) / pp := by
        rw [Nat.one_le_div_iff h]; omega
      rw [Nat.max_eq_right hd, Nat.sub_mul, one_mul, Nat.mul_comm]
      have h1 := Nat.div_add_mod (total + pp - 1) pp
      have h2 : (total + pp - 1) % pp < pp := Nat.mod_lt _ h
      generalize hP : pp * ((total + pp - 1) / pp) = P at h1 ⊢
      omega

/-- The sorting step of `/api/passengers` permutes the filtered rows. -/
theorem sortedRows_perm (t : Table) (sb : String) (asc : Bool) (l : List Row) :
    (sortedRows t sb asc l).Perm l := by
  unfold sortedRows
  by_cases h : hasCol t sb = true
  · rw [if_pos h]; exact List.perm_insertionSort _ l
  · rw [if_neg h]



/-- Rounding never decreases below the floor. -/
theorem pyRound_ge_floor (q : ℚ) : ⌊q⌋ ≤ pyRound q := by
  unfold pyRound
  split_ifs <;> omega

/-- Rounding never exceeds the floor plus one. -/
theorem pyRound_le_floor_add_one (q : ℚ) : pyRound q ≤ ⌊q⌋ + 1 := by
  unfold pyRound
  split_ifs <;> omega

/-- Round-half-to-even is monotone. -/
theorem pyRound_mono {a b : ℚ} (h : a ≤ b) : pyRound a ≤ pyRound b := by
  rcases lt_or_eq_of_le (Int.floor_le_floor h) with hf | hf
  · calc pyRound a ≤ ⌊a⌋ + 1 := pyRound_le_floor_add_one a
      _ ≤ ⌊b⌋ := by omega
      _ ≤ pyRound b := pyRound_ge_floor b
  · unfold pyRound
    rw [hf]
    split_ifs <;> first | omega | (exfalso; linarith)

/-- Rounding at a fixed number of decimals is monotone. -/
theorem roundTo_mono (d : ℕ) {a b : ℚ} (h : a ≤ b) : roundTo d a ≤ roundTo d b := by
  unfold roundTo
  have h1 : (0 : ℚ) < 10 ^ d := by positivity
  have h2 : a * 10 ^ d ≤ b * 10 ^ d := by
    exact mul_le_mul_of_nonneg_right h (le_of_lt h1)
  have h3 : ((pyRound (a * 10 ^ d) : ℚ)) ≤ ((pyRound (b * 10 ^ d) : ℚ)) :=
    Int.cast_le.mpr (pyRound_mono h2)
  gcongr

/-- `round` sits within one half above its argument. -/
theorem pyRound_le_add_half (q : ℚ) : (pyRound q : ℚ) ≤ q + 1/2 := by
  have hfl := Int.floor_le q
  have hfu := Int.lt_floor_add_one q
  unfold pyRound
  split_ifs <;> push_cast <;> linarith

/-- The fare order on rows is reflexive. -/
theorem fareLe_refl : ∀ a : Row, fareLe a a := by
  intro a
  unfold fareLe
  cases a.fare <;> simp [optKeyLe]

/-- The fare order on rows is total. -/
theorem fareLe_total : ∀ a b : Row, fareLe a b ∨ fareLe b a := by
  intro a b
  unfold fareLe
  cases a.fare <;> cases b.fare <;> simp [optKeyLe]
  exact le_total _ _

/-- The fare order on rows is transitive. -/
theorem fareLe_trans : ∀ a b c : Row, fareLe a b → fareLe b c → fareLe a c := by
  intro a b c
  unfold fareLe
  cases a.fare <;> cases b.fare <;> cases c.fare <;> simp [optKeyLe]
  exact le_trans

/-- A `filterMap` whose function hits on every element keeps the length. -/
theorem length_filterMap_of_forall_some {α β : Type} (g : α → Option β) (l : List α)
    (h : ∀ a ∈ l, (g a).isSome = true) : (l.filterMap g).length = l.length := by
  induction l with
  | nil => rfl
  | cons x xs ih =>
    have hx := h x (by simp)
    rcases hgx : g x with _ | b
    · rw [hgx] at hx; simp at hx
    · simp [List.filterMap_cons, hgx, ih (fun a ha => h a (List.mem_cons_of_mem _ ha))]

/-- Every row of the heatmap frame carries a fare. -/
theorem heatRowsSorted_fare_isSome (t : Table) :
    ∀ r ∈ heatRowsSorted t, r.fare.isSome = true := by
  intro r hr
  unfold heatRowsSorted at hr
  rw [List.mem_insertionSort] at hr
  exact (List.mem_filter.mp hr).2

/-- The heatmap frame is sorted by the row fare order. -/
theorem heatRowsSorted_sorted (t : Table) : (heatRowsSorted t).Sorted fareLe := by
  haveI : IsTotal Row fareLe := ⟨fareLe_total⟩
  haveI : IsTrans Row fareLe := ⟨fareLe_trans⟩
  exact List.sorted_insertionSort fareLe _

/-- Projecting a fare-sorted, fare-carrying list through indices that are
non-decreasing yields points with non-decreasing fares. -/
theorem pairwise_fare_of_sorted (l : List Row) (hs : l.Sorted fareLe)
    (hsome : ∀ r ∈ l, r.fare.isSome = true) (idx : List ℕ)
    (hidx : idx.Pairwise (· ≤ ·)) :
    List.Pairwise (fun p₁ p₂ : HeatPoint => p₁.fare ≤ p₂.fare)
      (idx.filterMap (fun ix => (l[ix]?).map mkHeatPoint)) := by
  haveI : IsRefl Row fareLe := ⟨fareLe_refl⟩
  rw [List.pairwise_filterMap]
  refine hidx.imp_of_mem ?_
  intro i j _ _ hij p hp q_ hq
  rcases hgi : l[i]? with _ | r₁
  · rw [hgi] at hp; simp at hp
  rcases hgj : l[j]? with _ | r₂
  · rw [hgj] at hq; simp at hq
  rw [hgi] at hp
  rw [hgj] at hq
  simp at hp hq
  subst hp
  subst hq
  have hi : i < l.length := (List.getElem?_eq_some_iff.mp hgi).1
  have hj : j < l.length := (List.getElem?_eq_some_iff.mp hgj).1
  have hr₁ : r₁ = l.get ⟨i, hi⟩ := by
    have := (List.getElem?_eq_some_iff.mp hgi).2
    simp [List.get_eq_getElem, this]
  have hr₂ : r₂ = l.get ⟨j, hj⟩ := by
    have := (List.getElem?_eq_some_iff.mp hgj).2
    simp [List.get_eq_getElem, this]
  have hrel : fareLe r₁ r₂ := by
    rw [hr₁, hr₂]
    exact hs.rel_get_of_le (by exact hij)
  have h₁ : r₁ ∈ l := by rw [hr₁]; exact List.get_mem l i hi
  have h₂ : r₂ ∈ l := by rw [hr₂]; exact List.get_mem l j hj
  obtain ⟨f₁, hf₁⟩ := Option.isSome_iff_exists.mp (hsome r₁ h₁)
  obtain ⟨f₂, hf₂⟩ := Option.isSome_iff_exists.mp (hsome r₂ h₂)
  have : f₁ ≤ f₂ := by
    unfold fareLe at hrel
    rw [hf₁, hf₂] at hrel
    simpa [optKeyLe] using hrel
  show roundTo 2 (r₁.fare.getD 0) ≤ roundTo 2 (r₂.fare.getD 0)
  rw [hf₁, hf₂]
  exact roundTo_mono 2 this

/-- The display-mapped heatmap frame has non-decreasing fares. -/
theorem pairwise_fare_map_all (t : Table) :
    List.Pairwise (fun p₁ p₂ : HeatPoint => p₁.fare ≤ p₂.fare)
      ((heatRowsSorted t).map mkHeatPoint) := by
  rw [List.pairwise_map]
  refine List.Pairwise.imp_of_mem ?_ (heatRowsSorted_sorted t)
  intro r₁ r₂ h₁ h₂ hrel
  obtain ⟨f₁, hf₁⟩ := Option.isSome_iff_exists.mp (heatRowsSorted_fare_isSome t r₁ h₁)
  obtain ⟨f₂, hf₂⟩ := Option.isSome_iff_exists.mp (heatRowsSorted_fare_isSome t r₂ h₂)
  have hle : f₁ ≤ f₂ := by
    unfold fareLe at hrel
    rw [hf₁, hf₂] at hrel
    simpa [optKeyLe] using hrel
  show roundTo 2 (r₁.fare.getD 0) ≤ roundTo 2 (r₂.fare.getD 0)
  rw [hf₁, hf₂]
  exact roundTo_mono 2 hle

/-! ### C2 — heatmap sampling -/

/-- C2 (amended): when `heatmapSample` succeeds the accepted `n` was at
most 500 (larger values are rejected with a validation error, not capped);
all fare-carrying rows are returned when they number at most `n`, otherwise
exactly the rows at indices `floor(i*len/n)` for `i < n` are returned
(`n.toNat` of them); the returned points number at most `n` and are
non-decreasing by fare; determinism holds because the sampling is a pure
function of the table and `n`. -/
theorem claim_C2 (t : Table) (n : ℤ) (pts : List HeatPoint)
    (h : heatmap t n = Except.ok pts) :
    n ≤ 500 ∧
    (((heatRowsSorted t).length : ℤ) ≤ n → pts = (heatRowsSorted t).map mkHeatPoint) ∧
    (n < ((heatRowsSorted t).length : ℤ) →
      pts = ((List.range n.toNat).map
          (fun i => i * (heatRowsSorted t).length / n.toNat)).filterMap
            (fun ix => ((heatRowsSorted t)[ix]?).map mkHeatPoint) ∧
      pts.length = n.toNat) ∧
    pts.length ≤ n.toNat ∧
    List.Pairwise (fun p₁ p₂ : HeatPoint => p₁.fare ≤ p₂.fare) pts := by
  unfold heatmap at h
  by_cases h500 : 500 < n
  · rw [if_pos h500] at h
    simp at h
  rw [if_neg h500] at h
  by_cases hcols : (t.schema.hasFare && t.schema.hasSurvived && t.schema.hasPclass) = false
  · rw [if_pos hcols] at h
    simp at h
  rw [if_neg hcols] at h
  by_cases hlen : ((heatRowsSorted t).length : ℤ) ≤ n
  · rw [if_pos hlen] at h
    have hpts := (Except.ok.inj h).symm
    subst hpts
    refine ⟨by omega, fun _ => rfl, fun hlt => absurd hlen (by omega), ?_, ?_⟩
    · rw [List.length_map]
      omega
    · exact pairwise_fare_map_all t
  · rw [if_neg hlen] at h
    have hpts := (Except.ok.inj h).symm
    subst hpts
    have hnn : ∀ i, i < n.toNat →
        i * (heatRowsSorted t).length / n.toNat < (heatRowsSorted t).length := by
      intro i hi
      have hpos : 0 < n.toNat := by omega
      have hlen0 : 0 < (heatRowsSorted t).length := by omega
      rw [Nat.div_lt_iff_lt_mul hpos]
      calc i * (heatRowsSorted t).length
          < n.toNat * (heatRowsSorted t).length := by
            exact (Nat.mul_lt_mul_right hlen0).mpr hi
        _ = (heatRowsSorted t).length * n.toNat := Nat.mul_comm _ _
    have hlenEq :
        (((List.range n.toNat).filterMap
          (fun i => (heatRowsSorted t)[i * (heatRowsSorted t).length / n.toNat]?)).map
            mkHeatPoint).length = n.toNat := by
      rw [List.length_map]
      rw [length_filterMap_of_forall_some _ _ ?_, List.length_range]
      intro i hi
      rw [List.getElem?_eq_getElem (hnn i (List.mem_range.mp hi))]
      rfl
    have hrewrite :
        (((List.range n.toNat).filterMap
          (fun i => (heatRowsSorted t)[i * (heatRowsSorted t).length / n.toNat]?)).map
            mkHeatPoint) =
        ((List.range n.toNat).map
            (fun i => i * (heatRowsSorted t).length / n.toNat)).filterMap
          (fun ix => ((heatRowsSorted t)[ix]?).map mkHeatPoint) := by
      rw [List.map_filterMap, List.filterMap_map]
      rfl
    refine ⟨by omega, fun hle => absurd hle (by omega), fun _ => ⟨hrewrite, hlenEq⟩, ?_, ?_⟩
    · rw [hlenEq]
    · rw [hrewrite]
      refine pairwise_fare_of_sorted _ (heatRowsSorted_sorted t)
        (heatRowsSorted_fare_isSome t) _ ?_
      rw [List.pairwise_map]
      refine List.Pairwise.imp ?_ (List.pairwise_lt_range n.toNat)
      intro i j hij
      exact Nat.div_le_div_right (Nat.mul_le_mul_right _ (le_of_lt hij))

/-- Witness for C2: the single fare-carrying row of `tOne` is returned
unsampled for `n = 500`. -/
theorem claim_C2_witness :
    (500 : ℤ) ≤ 500 ∧
    (((heatRowsSorted tOne).length : ℤ) ≤ 500 →
      (heatRowsSorted tOne).map mkHeatPoint = (heatRowsSorted tOne).map mkHeatPoint) ∧
    ((500 : ℤ) < ((heatRowsSorted tOne).length : ℤ) →
      (heatRowsSorted tOne).map mkHeatPoint =
        ((List.range (500 : ℤ).toNat).map
            (fun i => i * (heatRowsSorted tOne).length / (500 : ℤ).toNat)).filterMap
          (fun ix => ((heatRowsSorted tOne)[ix]?).map mkHeatPoint) ∧
      ((heatRowsSorted tOne).map mkHeatPoint).length = (500 : ℤ).toNat) ∧
    ((heatRowsSorted tOne).map mkHeatPoint).length ≤ (500 : ℤ).toNat ∧
    List.Pairwise (fun p₁ p₂ : HeatPoint => p₁.fare ≤ p₂.fare)
      ((heatRowsSorted tOne).map mkHeatPoint) :=
  claim_C2 tOne 500 ((heatRowsSorted tOne).map mkHeatPoint) (by rfl)

/-- C2 counterexample: with a single fare-carrying row and `n = 501` the
claim (cap at 500, then return all rows since 1 ≤ n) predicts the row is
returned; the endpoint instead rejects the request with a validation
error. The same call with `n = 500` succeeds, isolating the divergence to
the handling of `n > 500`. -/
theorem claim_C2_counterexample :
    heatmap tOne 501 = Except.error Err.validationErr ∧
    heatmap tOne 500 = Except.ok [mkHeatPoint rowA] :=
  ⟨rfl, rfl⟩

/-! ### C6 — summary counts add up -/

/-- C6: for every table on which `summary()` succeeds, the returned counts
satisfy `survivors + lost = total`. -/
theorem claim_C6 (t : Table) (s : StatsOut) (h : stats t = Except.ok s) :
    s.survivors + s.lost = (s.total : ℤ) := by
  by_cases hs : t.schema.hasSurvived = false
  · simp [stats, hs] at h
  · simp [stats, hs] at h
    subst h
    simp

/-- Witness for C6 on the concrete empty sample table. -/
theorem claim_C6_witness :
    (StatsOut.mk 0 0 0 0 none none none).survivors +
      (StatsOut.mk 0 0 0 0 none none none).lost =
      ((StatsOut.mk 0 0 0 0 none none none).total : ℤ) :=
  claim_C6 tEmpty (StatsOut.mk 0 0 0 0 none none none) (by rfl)

/-! ### C7 — summary on the empty table -/

/-- C7: on an empty table (with its `Survived` column present, as in the
dataset), `summary()` returns zero counts, a zero survival rate (the
division is guarded), and null averages and maximum — no error. -/
theorem claim_C7 (t : Table) (h0 : t.rows = []) (hs : t.schema.hasSurvived = true) :
    stats t = Except.ok (StatsOut.mk 0 0 0 0 none none none) := by
  simp [stats, hs, h0, meanOpt, maxOpt]

/-- Witness for C7 on the concrete empty table. -/
theorem claim_C7_witness :
    stats tEmpty = Except.ok (StatsOut.mk 0 0 0 0 none none none) :=
  claim_C7 tEmpty rfl rfl

/-! ### C4 — pagination arithmetic and page clamping -/

/-- C4: with a page size in 1..200 and a requested page ≥ 1 (the ranges
FastAPI admits), and filters that touch only present columns,
`listPassengers` succeeds; `total_pages` is exactly the ceiling of
`total / per_page` with a minimum of 1 (bracketed by the two coverage
inequalities), and the returned page is the requested page clamped to the
last page, never below 1 — a too-large page is clamped, not an error. -/
theorem claim_C4 (t : Table) (q : String) (sf : SurvFilter) (cf : Option ℤ)
    (page pp : ℕ) (sb : String) (asc : Bool) (o : PassOut)
    (hpp1 : 1 ≤ pp) (hpage : 1 ≤ page)
    (hsf : sf = SurvFilter.all ∨ t.schema.hasSurvived = true)
    (hcf : cf = none ∨ t.schema.hasPclass = true)
    (hpp2 : pp ≤ 200)
    (h : passengers t q sf cf page pp sb asc = Except.ok o) :
    1 ≤ o.total_pages ∧
    o.total ≤ o.total_pages * pp ∧
    ((o.total_pages - 1) * pp < o.total ∨ o.total_pages = 1) ∧
    o.page = min page o.total_pages ∧
    1 ≤ o.page ∧
    (o.total_pages < page → o.page = o.total_pages) := by
  have hok : o = passengersOk t q sf cf page pp sb asc := by
    unfold passengers at h
    rw [if_neg (by omega)] at h
    rw [if_neg (by rcases hsf with h1 | h1 <;> simp [h1])] at h
    rw [if_neg (by rcases hcf with h1 | h1 <;> simp [h1])] at h
    exact (Except.ok.inj h).symm
  subst hok
  have htot : (passengersOk t q sf cf page pp sb asc).total =
      (sortedRows t sb asc (filteredRows t q sf cf)).length := rfl
  have htp : (passengersOk t q sf cf page pp sb asc).total_pages =
      ceilPages (sortedRows t sb asc (filteredRows t q sf cf)).length pp := rfl
  have hpg : (passengersOk t q sf cf page pp sb asc).page =
      min page (ceilPages (sortedRows t sb asc (filteredRows t q sf cf)).length pp) := rfl
  rw [htot, htp, hpg]
  have h1 := ceilPages_pos (sortedRows t sb asc (filteredRows t q sf cf)).length pp
  refine ⟨h1, le_ceilPages_mul _ _ hpp1, ceilPages_min _ _ hpp1, rfl, by omega, by omega⟩

/-- Witness for C4: page 5 requested on a two-row table with one row per
page; the page is clamped to 2. -/
theorem claim_C4_witness :
    1 ≤ (passengersOk tSample "" SurvFilter.all none 5 1 "PassengerId" true).total_pages ∧
    (passengersOk tSample "" SurvFilter.all none 5 1 "PassengerId" true).total ≤
      (passengersOk tSample "" SurvFilter.all none 5 1 "PassengerId" true).total_pages * 1 ∧
    (((passengersOk tSample "" SurvFilter.all none 5 1 "PassengerId" true).total_pages - 1) * 1 <
        (passengersOk tSample "" SurvFilter.all none 5 1 "PassengerId" true).total ∨
      (passengersOk tSample "" SurvFilter.all none 5 1 "PassengerId" true).total_pages = 1) ∧
    (passengersOk tSample "" SurvFilter.all none 5 1 "PassengerId" true).page =
      min 5 (passengersOk tSample "" SurvFilter.all none 5 1 "PassengerId" true).total_pages ∧
    1 ≤ (passengersOk tSample "" SurvFilter.all none 5 1 "PassengerId" true).page ∧
    ((passengersOk tSample "" SurvFilter.all none 5 1 "PassengerId" true).total_pages < 5 →
      (passengersOk tSample "" SurvFilter.all none 5 1 "PassengerId" true).page =
        (passengersOk tSample "" SurvFilter.all none 5 1 "PassengerId" true).total_pages) :=
  claim_C4 tSample "" SurvFilter.all none 5 1 "PassengerId" true
    (passengersOk tSample "" SurvFilter.all none 5 1 "PassengerId" true)
    (by decide) (by decide) (Or.inl rfl) (Or.inl rfl) (by decide) (by rfl)

/-! ### C3 — pagination partitions the filtered set -/

/-- C3: for a fixed filter and sort, every page 1..totalPages is returned
successfully by `listPassengers`, and concatenating the row slices of all
those pages is a permutation of the display-mapped filtered set: each
filtered row appears exactly once, no duplicates, no omissions. -/
theorem claim_C3 (t : Table) (q : String) (sf : SurvFilter) (cf : Option ℤ)
    (pp : ℕ) (sb : String) (asc : Bool) (i : ℕ)
    (hpp1 : 1 ≤ pp) (hpp2 : pp ≤ 200)
    (hsf : sf = SurvFilter.all ∨ t.schema.hasSurvived = true)
    (hcf : cf = none ∨ t.schema.hasPclass = true)
    (_hi : i < (passengersOk t q sf cf 1 pp sb asc).total_pages) :
    passengers t q sf cf (i + 1) pp sb asc =
      Except.ok (passengersOk t q sf cf (i + 1) pp sb asc) ∧
    ((List.range (passengersOk t q sf cf 1 pp sb asc).total_pages).map
        (fun j => (passengersOk t q sf cf (j + 1) pp sb asc).rows)).flatten.Perm
      ((filteredRows t q sf cf).map (displayRow t)) := by
  constructor
  · unfold passengers
    rw [if_neg (by omega)]
    rw [if_neg (by rcases hsf with h1 | h1 <;> simp [h1])]
    rw [if_neg (by rcases hcf with h1 | h1 <;> simp [h1])]
  · have htp : (passengersOk t q sf cf 1 pp sb asc).total_pages =
        ceilPages (sortedRows t sb asc (filteredRows t q sf cf)).length pp := rfl
    rw [htp]
    have hrows : ∀ j, j < ceilPages (sortedRows t sb asc (filteredRows t q sf cf)).length pp →
        (passengersOk t q sf cf (j + 1) pp sb asc).rows =
          (((sortedRows t sb asc (filteredRows t q sf cf)).drop (j * pp)).take pp).map
            (displayRow t) := by
      intro j hj
      unfold passengersOk
      have hmin : min (j + 1) (ceilPages (sortedRows t sb asc (filteredRows t q sf cf)).length pp)
          = j + 1 := by omega
      simp only [hmin, Nat.add_sub_cancel]
    rw [List.map_congr_left (fun j hj => hrows j (List.mem_range.mp hj))]
    have hmapflat :
        ((List.range (ceilPages (sortedRows t sb asc (filteredRows t q sf cf)).length pp)).map
            (fun j => (((sortedRows t sb asc (filteredRows t q sf cf)).drop (j * pp)).take pp).map
              (displayRow t))).flatten =
          (((List.range (ceilPages (sortedRows t sb asc (filteredRows t q sf cf)).length pp)).map
            (fun j => ((sortedRows t sb asc (filteredRows t q sf cf)).drop (j * pp)).take pp)).flatten).map
              (displayRow t) := by
      rw [List.map_flatten, List.map_map]
      rfl
    rw [hmapflat, flatten_chunks]
    rw [List.take_of_length_le (le_ceilPages_mul _ _ hpp1)]
    exact (sortedRows_perm t sb asc (filteredRows t q sf cf)).map (displayRow t)

/-- Witness for C3: page 1 of the two-row sample table with one row per
page; the two pages together enumerate both filtered rows exactly once. -/
theorem claim_C3_witness :
    passengers tSample "" SurvFilter.all none (0 + 1) 1 "PassengerId" true =
      Except.ok (passengersOk tSample "" SurvFilter.all none (0 + 1) 1 "PassengerId" true) ∧
    ((List.range (passengersOk tSample "" SurvFilter.all none 1 1 "PassengerId" true).total_pages).map
        (fun j => (passengersOk tSample "" SurvFilter.all none (j + 1) 1 "PassengerId" true).rows)).flatten.Perm
      ((filteredRows tSample "" SurvFilter.all none).map (displayRow tSample)) :=
  claim_C3 tSample "" SurvFilter.all none 1 "PassengerId" true 0
    (by decide) (by decide) (Or.inl rfl) (Or.inl rfl) (by decide)

/-! ### C10 — operations that require the Survived column -/



/-- Under a missing `Survived` column, one class iteration yields `none`
for an empty class group and a KeyError otherwise. -/
theorem classEntry_noSurv (t : Table) (c : ℤ) (lab : String)
    (hs : t.schema.hasSurvived = false) :
    classEntry t c lab =
      if (t.rows.filter (fun r => r.pclass == some c)) = [] then Except.ok none
      else Except.error Err.keyErr := by
  unfold classEntry
  by_cases h0 : (t.rows.filter (fun r => r.pclass == some c)) = []
  · simp [h0]
  · have h0l : ¬ (t.rows.filter (fun r => r.pclass == some c)).length = 0 := by
      simpa [List.length_eq_zero] using h0
    simp [h0, h0l, hs]

/-- Under a missing `Survived` column, one gender iteration yields `none`
for an empty gender group and a KeyError otherwise. -/
theorem genderEntry_noSurv (t : Table) (sx : String) (lab : String)
    (hs : t.schema.hasSurvived = false) :
    genderEntry t sx lab =
      if (t.rows.filter (fun r => r.sex == some sx)) = [] then Except.ok none
      else Except.error Err.keyErr := by
  unfold genderEntry
  by_cases h0 : (t.rows.filter (fun r => r.sex == some sx)) = []
  · simp [h0]
  · have h0l : ¬ (t.rows.filter (fun r => r.sex == some sx)).length = 0 := by
      simpa [List.length_eq_zero] using h0
    simp [h0, h0l, hs]

/-- C10 (amended): on a table lacking the `Survived` column, `summary()`
always fails with a KeyError. `byClass()` and `byGender()` fail only when
their grouping column is missing or some reported group (class 1/2/3,
sex female/male) is non-empty; when every group is empty they return an
empty list without ever touching `Survived`. -/
theorem claim_C10 (t : Table) (hs : t.schema.hasSurvived = false) :
    stats t = Except.error Err.keyErr ∧
    (t.schema.hasPclass = false → by_class t = Except.error Err.keyErr) ∧
    (t.schema.hasPclass = true →
      ((t.rows.filter (fun r => r.pclass == some 1)) ≠ [] ∨
       (t.rows.filter (fun r => r.pclass == some 2)) ≠ [] ∨
       (t.rows.filter (fun r => r.pclass == some 3)) ≠ []) →
      by_class t = Except.error Err.keyErr) ∧
    (t.schema.hasPclass = true →
      (t.rows.filter (fun r => r.pclass == some 1)) = [] →
      (t.rows.filter (fun r => r.pclass == some 2)) = [] →
      (t.rows.filter (fun r => r.pclass == some 3)) = [] →
      by_class t = Except.ok []) ∧
    (t.schema.hasSex = false → by_gender t = Except.error Err.keyErr) ∧
    (t.schema.hasSex = true →
      ((t.rows.filter (fun r => r.sex == some "female")) ≠ [] ∨
       (t.rows.filter (fun r => r.sex == some "male")) ≠ []) →
      by_gender t = Except.error Err.keyErr) ∧
    (t.schema.hasSex = true →
      (t.rows.filter (fun r => r.sex == some "female")) = [] →
      (t.rows.filter (fun r => r.sex == some "male")) = [] →
      by_gender t = Except.ok []) := by
  refine ⟨?_, ?_, ?_, ?_, ?_, ?_, ?_⟩
  · simp [stats, hs]
  · intro hpc
    simp [by_class, hpc]
  · intro hpc hne
    unfold by_class
    rw [if_neg (by simp [hpc])]
    rw [classEntry_noSurv t 1 _ hs, classEntry_noSurv t 2 _ hs, classEntry_noSurv t 3 _ hs]
    by_cases h1 : (t.rows.filter (fun r => r.pclass == some 1)) = [] <;>
      by_cases h2 : (t.rows.filter (fun r => r.pclass == some 2)) = [] <;>
        by_cases h3 : (t.rows.filter (fun r => r.pclass == some 3)) = [] <;>
          simp [h1, h2, h3, Except.bind] <;> tauto
  · intro hpc h1 h2 h3
    unfold by_class
    rw [if_neg (by simp [hpc])]
    rw [classEntry_noSurv t 1 _ hs, classEntry_noSurv t 2 _ hs, classEntry_noSurv t 3 _ hs]
    simp only [h1, h2, h3, if_pos]
    rfl
  · intro hsx
    simp [by_gender, hsx]
  · intro hsx hne
    unfold by_gender
    rw [if_neg (by simp [hsx])]
    rw [genderEntry_noSurv t "female" _ hs, genderEntry_noSurv t "male" _ hs]
    by_cases h1 : (t.rows.filter (fun r => r.sex == some "female")) = [] <;>
      by_cases h2 : (t.rows.filter (fun r => r.sex == some "male")) = [] <;>
        simp [h1, h2, Except.bind] <;> tauto
  · intro hsx h1 h2
    unfold by_gender
    rw [if_neg (by simp [hsx])]
    rw [genderEntry_noSurv t "female" _ hs, genderEntry_noSurv t "male" _ hs]
    simp only [h1, h2, if_pos]
    rfl

/-- Witness for C10 on the concrete Survived-less table with empty
groups. -/
theorem claim_C10_witness :
    stats tNoSurv = Except.error Err.keyErr ∧
    (tNoSurv.schema.hasPclass = false → by_class tNoSurv = Except.error Err.keyErr) ∧
    (tNoSurv.schema.hasPclass = true →
      ((tNoSurv.rows.filter (fun r => r.pclass == some 1)) ≠ [] ∨
       (tNoSurv.rows.filter (fun r => r.pclass == some 2)) ≠ [] ∨
       (tNoSurv.rows.filter (fun r => r.pclass == some 3)) ≠ []) →
      by_class tNoSurv = Except.error Err.keyErr) ∧
    (tNoSurv.schema.hasPclass = true →
      (tNoSurv.rows.filter (fun r => r.pclass == some 1)) = [] →
      (tNoSurv.rows.filter (fun r => r.pclass == some 2)) = [] →
      (tNoSurv.rows.filter (fun r => r.pclass == some 3)) = [] →
      by_class tNoSurv = Except.ok []) ∧
    (tNoSurv.schema.hasSex = false → by_gender tNoSurv = Except.error Err.keyErr) ∧
    (tNoSurv.schema.hasSex = true →
      ((tNoSurv.rows.filter (fun r => r.sex == some "female")) ≠ [] ∨
       (tNoSurv.rows.filter (fun r => r.sex == some "male")) ≠ []) →
      by_gender tNoSurv = Except.error Err.keyErr) ∧
    (tNoSurv.schema.hasSex = true →
      (tNoSurv.rows.filter (fun r => r.sex == some "female")) = [] →
      (tNoSurv.rows.filter (fun r => r.sex == some "male")) = [] →
      by_gender tNoSurv = Except.ok []) :=
  claim_C10 tNoSurv rfl

/-- C10 counterexample: a table lacking `Survived` whose class and sex
groups are all empty. `summary()` errors, but `byClass()` and `byGender()`
both return an empty list successfully, contradicting the claim that each
of the three operations fails on every such table. -/
theorem claim_C10_counterexample :
    tNoSurv.schema.hasSurvived = false ∧
    by_class tNoSurv = Except.ok [] ∧
    by_gender tNoSurv = Except.ok [] ∧
    stats tNoSurv = Except.error Err.keyErr :=
  ⟨rfl, rfl, rfl, rfl⟩


/-! ### C8 — display defaults for name, sex and fare -/



/-- C8 (amended): in the returned slice, the defaults apply only when the
column is absent from the table: a missing `Name` column displays
"Unknown" and a missing `Sex` column the empty string, but a null value in
a present column is passed through as the null itself. `fare` is the raw
fare rounded to 2 decimals, null when the column or the value is absent. -/
theorem claim_C8 (t : Table) (q : String) (sf : SurvFilter) (cf : Option ℤ)
    (page pp : ℕ) (sb : String) (asc : Bool) (o : PassOut) (d : DispRow)
    (h : passengers t q sf cf page pp sb asc = Except.ok o)
    (hd : d ∈ o.rows) :
    (t.schema.hasName = false → d.name = some "Unknown") ∧
    (t.schema.hasName = true → d.name ∈ t.rows.map (·.name)) ∧
    (t.schema.hasSex = false → d.sex = some "") ∧
    (t.schema.hasSex = true → d.sex ∈ t.rows.map (·.sex)) ∧
    (t.schema.hasFare = false → d.fare = none) ∧
    (t.schema.hasFare = true → d.fare ∈ t.rows.map (fun r => r.fare.map (roundTo 2))) := by
  unfold passengers at h
  split_ifs at h
  try simp at h
  have ho : o = passengersOk t q sf cf page pp sb asc := h.symm
  subst ho
  obtain ⟨r, hr, rfl⟩ := List.mem_map.mp hd
  have hrs : r ∈ sortedRows t sb asc (filteredRows t q sf cf) :=
    List.mem_of_mem_drop (List.mem_of_mem_take hr)
  have hrf : r ∈ filteredRows t q sf cf :=
    (sortedRows_perm t sb asc (filteredRows t q sf cf)).mem_iff.mp hrs
  have hrow : r ∈ t.rows := List.mem_of_mem_filter hrf
  refine ⟨?_, ?_, ?_, ?_, ?_, ?_⟩
  · intro hn
    simp [displayRow, hn]
  · intro hn
    have : (displayRow t r).name = r.name := by simp [displayRow, hn]
    rw [this]
    exact List.mem_map_of_mem _ hrow
  · intro hn
    simp [displayRow, hn]
  · intro hn
    have : (displayRow t r).sex = r.sex := by simp [displayRow, hn]
    rw [this]
    exact List.mem_map_of_mem _ hrow
  · intro hn
    simp [displayRow, hn]
  · intro hn
    have : (displayRow t r).fare = r.fare.map (roundTo 2) := by simp [displayRow, hn]
    rw [this]
    exact List.mem_map_of_mem _ hrow

/-- Witness for C8: the first display row of the two-row sample table. -/
theorem claim_C8_witness :
    (tSample.schema.hasName = false →
      (displayRow tSample rowA).name = some "Unknown") ∧
    (tSample.schema.hasName = true →
      (displayRow tSample rowA).name ∈ tSample.rows.map (·.name)) ∧
    (tSample.schema.hasSex = false → (displayRow tSample rowA).sex = some "") ∧
    (tSample.schema.hasSex = true →
      (displayRow tSample rowA).sex ∈ tSample.rows.map (·.sex)) ∧
    (tSample.schema.hasFare = false → (displayRow tSample rowA).fare = none) ∧
    (tSample.schema.hasFare = true →
      (displayRow tSample rowA).fare ∈ tSample.rows.map (fun r => r.fare.map (roundTo 2))) :=
  claim_C8 tSample "" SurvFilter.all none 1 50 "PassengerId" true
    (passengersOk tSample "" SurvFilter.all none 1 50 "PassengerId" true)
    (displayRow tSample rowA) (by rfl) (List.Mem.head _)

/-- C8 counterexample: a table whose `Name` column exists but holds a null
in its only row. The claim predicts the row displays name "Unknown"; the
endpoint passes the null through, so the displayed name list is `[none]`,
not `[some "Unknown"]`. -/
theorem claim_C8_counterexample :
    tNullName.schema.hasName = true ∧
    rowD.name = none ∧
    passengers tNullName "" SurvFilter.all none 1 50 "PassengerId" true =
      Except.ok (passengersOk tNullName "" SurvFilter.all none 1 50 "PassengerId" true) ∧
    (passengersOk tNullName "" SurvFilter.all none 1 50 "PassengerId" true).rows.map (·.name) =
      [none] :=
  ⟨rfl, rfl, rfl, rfl⟩

/-! ### C5 — boarding-port groups -/



/-- Factoring a constant out of a list sum. -/
theorem sum_map_mul_right_rat {α : Type} (l : List α) (f : α → ℚ) (r : ℚ) :
    (l.map (fun x => f x * r)).sum = (l.map f).sum * r := by
  induction l with
  | nil => simp
  | cons x xs ih => simp [ih, add_mul]

/-- Casting a sum of naturals into the rationals. -/
theorem cast_sum_nat_map {α : Type} (l : List α) (f : α → ℕ) :
    (l.map (fun x => (f x : ℚ))).sum = (((l.map f).sum : ℕ) : ℚ) := by
  induction l with
  | nil => simp
  | cons x xs ih => simp [ih]

/-- Rounding a whole list adds at most half a unit per element. -/
theorem sum_pyRound_le (l : List ℚ) :
    (((l.map pyRound).sum : ℤ) : ℚ) ≤ l.sum + (l.length : ℚ) / 2 := by
  induction l with
  | nil => simp
  | cons x xs ih =>
    rw [List.map_cons, List.sum_cons, List.sum_cons, List.length_cons]
    push_cast
    push_cast at ih
    have hx := pyRound_le_add_half x
    linarith

/-- Distinct keys index disjoint groups: the group sizes sum to at most
the population size. -/
theorem sum_count_le_length {α : Type} [DecidableEq α] :
    ∀ (keys vals : List α), keys.Nodup → (∀ k ∈ keys, k ∈ vals) →
      (keys.map (fun k => vals.count k)).sum ≤ vals.length := by
  intro keys
  induction keys with
  | nil =>
    intro vals _ _
    simp
  | cons k ks ih =>
    intro vals hnd hsub
    rw [List.map_cons, List.sum_cons]
    have hk : k ∉ ks := (List.nodup_cons.mp hnd).1
    have hks : ks.Nodup := (List.nodup_cons.mp hnd).2
    have hmap : ks.map (fun x => vals.count x)
        = ks.map (fun x => (vals.filter (fun v => !(v == k))).count x) := by
      refine List.map_congr_left ?_
      intro x hx
      have hxk : x ≠ k := fun hxx => hk (hxx ▸ hx)
      rw [List.count_filter (by simp [hxk])]
    rw [hmap]
    have hsub2 : ∀ x ∈ ks, x ∈ vals.filter (fun v => !(v == k)) := by
      intro x hx
      rw [List.mem_filter]
      have hxk : x ≠ k := fun hxx => hk (hxx ▸ hx)
      exact ⟨hsub x (List.mem_cons_of_mem _ hx), by simp [hxk]⟩
    have hle := ih (vals.filter (fun v => !(v == k))) hks hsub2
    have hpart : vals.length = (vals.filter (fun v => v == k)).length
        + (vals.filter (fun v => !(v == k))).length :=
      List.length_eq_length_filter_add (fun v => v == k)
    have hcnt : vals.count k = (vals.filter (fun v => v == k)).length := by
      rw [show vals.count k = vals.countP (fun v => v == k) from rfl,
        List.countP_eq_length_filter]
    omega



/-- `by_port` is the count-descending sort of the grouped output. -/
theorem by_port_eq (t : Table)
    (hcol : (t.schema.hasBoarded || t.schema.hasEmbarked) = true) :
    by_port t
      = List.insertionSort (fun a b : PortEntry => b.count ≤ a.count) (byPortPre t) := by
  unfold by_port byPortPre
  rw [if_neg (by simp [hcol])]

/-- The keys of the grouped output are distinct members of the port
column. -/
theorem byPortPre_keys (t : Table) :
    ((List.insertionSort (fun a b => strLeB a b = true)
        (t.rows.filterMap (portVal t)).dedup).filter (fun s => pyStrip s ≠ "")).Nodup ∧
    ∀ k ∈ (List.insertionSort (fun a b => strLeB a b = true)
        (t.rows.filterMap (portVal t)).dedup).filter (fun s => pyStrip s ≠ ""),
      k ∈ t.rows.filterMap (portVal t) := by
  constructor
  · refine List.Nodup.filter _ ?_
    exact ((List.perm_insertionSort _ _).nodup_iff).mpr (List.nodup_dedup _)
  · intro k hk
    have h1 := List.mem_of_mem_filter hk
    rw [List.mem_insertionSort] at h1
    exact List.mem_dedup.mp h1

/-- C5 (amended): `byPort()` reports, for each returned entry, a non-blank
port, its positive group size among the non-null port values, and
`round(count/total*100)` with the full table length as denominator; the
entries are sorted descending by count and the group sizes sum to at most
the table size, so the unrounded percentages sum to at most 100 — but the
reported, rounded percentages may exceed 100 by up to half a point per
port: twice their sum is at most 200 plus the number of ports. -/
theorem claim_C5 (t : Table) (e : PortEntry) (he : e ∈ by_port t) :
    pyStrip e.port ≠ "" ∧
    0 < e.count ∧
    e.count = (t.rows.filterMap (portVal t)).count e.port ∧
    e.pct = pyRound (((t.rows.filterMap (portVal t)).count e.port : ℚ)
      / t.rows.length * 100) ∧
    ((by_port t).map (·.count)).sum ≤ t.rows.length ∧
    List.Pairwise (fun a b : PortEntry => b.count ≤ a.count) (by_port t) ∧
    2 * ((by_port t).map (·.pct)).sum ≤ 200 + ((by_port t).length : ℤ) := by
  haveI : IsTotal PortEntry (fun a b => b.count ≤ a.count) :=
    ⟨fun a b => Nat.le_total b.count a.count⟩
  haveI : IsTrans PortEntry (fun a b => b.count ≤ a.count) :=
    ⟨fun _ _ _ h1 h2 => Nat.le_trans h2 h1⟩
  by_cases hcol : (t.schema.hasBoarded || t.schema.hasEmbarked) = false
  · unfold by_port at he
    rw [if_pos hcol] at he
    simp at he
  have hcol2 : (t.schema.hasBoarded || t.schema.hasEmbarked) = true := by
    revert hcol
    cases t.schema.hasBoarded || t.schema.hasEmbarked <;> simp
  have heq := by_port_eq t hcol2
  obtain ⟨hnd, hsub⟩ := byPortPre_keys t
  have hperm : (by_port t).Perm (byPortPre t) := by
    rw [heq]
    exact List.perm_insertionSort _ _
  have hcountsum : ((by_port t).map (·.count)).sum ≤ t.rows.length := by
    rw [(hperm.map (·.count)).sum_eq]
    unfold byPortPre
    rw [List.map_map]
    show (((List.insertionSort (fun a b => strLeB a b = true)
        (t.rows.filterMap (portVal t)).dedup).filter (fun s => pyStrip s ≠ "")).map
          (fun k => (t.rows.filterMap (portVal t)).count k)).sum ≤ t.rows.length
    calc (((List.insertionSort (fun a b => strLeB a b = true)
          (t.rows.filterMap (portVal t)).dedup).filter (fun s => pyStrip s ≠ "")).map
            (fun k => (t.rows.filterMap (portVal t)).count k)).sum
        ≤ (t.rows.filterMap (portVal t)).length :=
          sum_count_le_length _ _ hnd hsub
      _ ≤ t.rows.length := List.length_filterMap_le _ _
  have hpairwise : List.Pairwise (fun a b : PortEntry => b.count ≤ a.count) (by_port t) := by
    rw [heq]
    exact List.sorted_insertionSort _ _
  have hpctsum : 2 * ((by_port t).map (·.pct)).sum ≤ 200 + ((by_port t).length : ℤ) := by
    by_cases hrows : t.rows.length = 0
    · have hvals : t.rows.filterMap (portVal t) = [] := by
        have := List.length_filterMap_le (portVal t) t.rows
        rw [hrows] at this
        exact List.eq_nil_of_length_eq_zero (by omega)
      have hpre : byPortPre t = [] := by
        unfold byPortPre
        rw [hvals]
        rfl
      have hbp : by_port t = [] := by
        rw [hpre] at hperm
        exact hperm.eq_nil
      rw [hbp]
      simp
    · set vals := t.rows.filterMap (portVal t) with hvals
      set keys := (List.insertionSort (fun a b => strLeB a b = true)
        vals.dedup).filter (fun s => pyStrip s ≠ "") with hkeys
      have hT : (0 : ℚ) < (t.rows.length : ℚ) := by
        have : 0 < t.rows.length := Nat.pos_of_ne_zero hrows
        exact_mod_cast this
      have hS : ((by_port t).map (·.pct)).sum
          = ((keys.map (fun k => (vals.count k : ℚ) / t.rows.length * 100)).map pyRound).sum := by
        rw [(hperm.map (·.pct)).sum_eq]
        unfold byPortPre
        rw [List.map_map, List.map_map]
        rfl
      have hL : (by_port t).length = keys.length := by
        rw [hperm.length_eq]
        unfold byPortPre
        rw [List.length_map]
      have h1 := sum_pyRound_le (keys.map (fun k => (vals.count k : ℚ) / t.rows.length * 100))
      rw [List.length_map] at h1
      have h2 : (keys.map (fun k => (vals.count k : ℚ) / t.rows.length * 100)).sum
          = (keys.map (fun k => (vals.count k : ℚ))).sum * (100 / t.rows.length) := by
        rw [← sum_map_mul_right_rat]
        congr 1
        refine List.map_congr_left ?_
        intro k _
        ring
      have h3 : (keys.map (fun k => (vals.count k : ℚ))).sum
          = (((keys.map (fun k => vals.count k)).sum : ℕ) : ℚ) :=
        cast_sum_nat_map keys (fun k => vals.count k)
      have h4 : ((keys.map (fun k => vals.count k)).sum : ℕ) ≤ t.rows.length := by
        calc (keys.map (fun k => vals.count k)).sum ≤ vals.length :=
            sum_count_le_length _ _ hnd hsub
          _ ≤ t.rows.length := by rw [hvals]; exact List.length_filterMap_le _ _
      have h5 : (keys.map (fun k => (vals.count k : ℚ))).sum * (100 / t.rows.length)
          ≤ (t.rows.length : ℚ) * (100 / t.rows.length) := by
        refine mul_le_mul_of_nonneg_right ?_ (by positivity)
        rw [h3]
        exact_mod_cast h4
      have h6 : (t.rows.length : ℚ) * (100 / (t.rows.length : ℚ)) = 100 := by
        rw [mul_comm, div_mul_cancel₀]
        exact ne_of_gt hT
      rw [hS, hL]
      have hq : (((keys.map (fun k => (vals.count k : ℚ) / t.rows.length * 100)).map
          pyRound).sum : ℚ) ≤ 100 + (keys.length : ℚ) / 2 := by
        calc (((keys.map (fun k => (vals.count k : ℚ) / t.rows.length * 100)).map
            pyRound).sum : ℚ)
            ≤ (keys.map (fun k => (vals.count k : ℚ) / t.rows.length * 100)).sum
              + (keys.length : ℚ) / 2 := h1
          _ ≤ 100 + (keys.length : ℚ) / 2 := by
              rw [h2]
              have := le_trans h5 (le_of_eq h6)
              linarith
      have : (2 : ℚ) * (((keys.map (fun k => (vals.count k : ℚ) / t.rows.length * 100)).map
          pyRound).sum : ℚ) ≤ 200 + (keys.length : ℚ) := by linarith
      exact_mod_cast this
  rw [heq] at he
  rw [List.mem_insertionSort] at he
  unfold byPortPre at he
  obtain ⟨k, hkmem, rfl⟩ := List.mem_map.mp he
  refine ⟨?_, ?_, rfl, rfl, hcountsum, hpairwise, hpctsum⟩
  · have := (List.mem_filter.mp hkmem).2
    simpa using this
  · rw [List.count_pos_iff]
    exact hsub k hkmem

/-- Witness for C5: the single-port entry of the one-row sample table. -/
theorem claim_C5_witness :
    pyStrip (PortEntry.mk "Southampton" 1
        (pyRound (((1 : ℕ) : ℚ) / ((1 : ℕ) : ℚ) * 100))).port ≠ "" ∧
    0 < (PortEntry.mk "Southampton" 1
        (pyRound (((1 : ℕ) : ℚ) / ((1 : ℕ) : ℚ) * 100))).count ∧
    (PortEntry.mk "Southampton" 1
        (pyRound (((1 : ℕ) : ℚ) / ((1 : ℕ) : ℚ) * 100))).count
      = (tOne.rows.filterMap (portVal tOne)).count
          (PortEntry.mk "Southampton" 1
            (pyRound (((1 : ℕ) : ℚ) / ((1 : ℕ) : ℚ) * 100))).port ∧
    (PortEntry.mk "Southampton" 1
        (pyRound (((1 : ℕ) : ℚ) / ((1 : ℕ) : ℚ) * 100))).pct
      = pyRound (((tOne.rows.filterMap (portVal tOne)).count
          (PortEntry.mk "Southampton" 1
            (pyRound (((1 : ℕ) : ℚ) / ((1 : ℕ) : ℚ) * 100))).port : ℚ)
          / tOne.rows.length * 100) ∧
    ((by_port tOne).map (·.count)).sum ≤ tOne.rows.length ∧
    List.Pairwise (fun a b : PortEntry => b.count ≤ a.count) (by_port tOne) ∧
    2 * ((by_port tOne).map (·.pct)).sum ≤ 200 + ((by_port tOne).length : ℤ) :=
  claim_C5 tOne
    (PortEntry.mk "Southampton" 1 (pyRound (((1 : ℕ) : ℚ) / ((1 : ℕ) : ℚ) * 100)))
    (List.Mem.head _)

/-- C5 counterexample: six rows over ports A (1), B (1), C (4). The
rounded percentages are 17, 17 and 67, which sum to 101 > 100, refuting
the claim that the returned percentages sum to at most 100. -/
theorem claim_C5_counterexample :
    ((by_port tPorts).map (·.pct)).sum = 101 ∧
    ¬ ((by_port tPorts).map (·.pct)).sum ≤ 100 := by
  have hform : by_port tPorts =
      [PortEntry.mk "C" 4 (pyRound (((4 : ℕ) : ℚ) / ((6 : ℕ) : ℚ) * 100)),
       PortEntry.mk "A" 1 (pyRound (((1 : ℕ) : ℚ) / ((6 : ℕ) : ℚ) * 100)),
       PortEntry.mk "B" 1 (pyRound (((1 : ℕ) : ℚ) / ((6 : ℕ) : ℚ) * 100))] := rfl
  have hsixth : pyRound (((1 : ℕ) : ℚ) / ((6 : ℕ) : ℚ) * 100) = 17 := by
    have harg : ((1 : ℕ) : ℚ) / ((6 : ℕ) : ℚ) * 100 = 50 / 3 := by norm_num
    have hfl : ⌊(50 : ℚ) / 3⌋ = 16 := by norm_num
    rw [harg]
    unfold pyRound
    rw [hfl]
    norm_num
  have hfour : pyRound (((4 : ℕ) : ℚ) / ((6 : ℕ) : ℚ) * 100) = 67 := by
    have harg : ((4 : ℕ) : ℚ) / ((6 : ℕ) : ℚ) * 100 = 200 / 3 := by norm_num
    have hfl : ⌊(200 : ℚ) / 3⌋ = 66 := by norm_num
    rw [harg]
    unfold pyRound
    rw [hfl]
    norm_num
  have hsum : ((by_port tPorts).map (·.pct)).sum = 101 := by
    rw [hform]
    simp only [List.map_cons, List.map_nil, List.sum_cons, List.sum_nil]
    rw [hsixth, hfour]
    omega
  refine ⟨hsum, ?_⟩
  rw [hsum]
  omega

/-! ### C1 — age-group bucketing -/



/-- `pd.cut` against the age bins, written as a decision chain over the
five left-open right-closed intervals. -/
theorem cutIdx_unfold (a : ℚ) :
    cutIdx a =
      if 0 < a ∧ a ≤ 12 then some 0
      else if 12 < a ∧ a ≤ 18 then some 1
      else if 18 < a ∧ a ≤ 35 then some 2
      else if 35 < a ∧ a ≤ 60 then some 3
      else if 60 < a ∧ a ≤ 120 then some 4
      else none := by
  unfold cutIdx
  have hr : List.range 5 = [0, 1, 2, 3, 4] := by decide
  rw [hr]
  by_cases h0 : 0 < a ∧ a ≤ 12
  · rw [if_pos h0, List.find?_cons_of_pos _ (by simp [agBins, h0])]
  rw [if_neg h0, List.find?_cons_of_neg _ (by simp [agBins, h0])]
  by_cases h1 : 12 < a ∧ a ≤ 18
  · rw [if_pos h1, List.find?_cons_of_pos _ (by simp [agBins, h1])]
  rw [if_neg h1, List.find?_cons_of_neg _ (by simp [agBins, h1])]
  by_cases h2 : 18 < a ∧ a ≤ 35
  · rw [if_pos h2, List.find?_cons_of_pos _ (by simp [agBins, h2])]
  rw [if_neg h2, List.find?_cons_of_neg _ (by simp [agBins, h2])]
  by_cases h3 : 35 < a ∧ a ≤ 60
  · rw [if_pos h3, List.find?_cons_of_pos _ (by simp [agBins, h3])]
  rw [if_neg h3, List.find?_cons_of_neg _ (by simp [agBins, h3])]
  by_cases h4 : 60 < a ∧ a ≤ 120
  · rw [if_pos h4, List.find?_cons_of_pos _ (by simp [agBins, h4])]
  rw [if_neg h4, List.find?_cons_of_neg _ (by simp [agBins, h4])]
  rfl

/-- The rows `pd.cut` puts in bucket `k` are exactly the rows whose age
lies in the interval `(bucketLo k, bucketHi k]`. -/
theorem filter_bucket_eq (t : Table) (k : ℕ) (hk : k < 5) :
    t.rows.filter (fun r => rowAgeGrp r == some k) = t.rows.filter (inBucketB k) := by
  refine List.filter_congr ?_
  intro r _
  unfold rowAgeGrp inBucketB
  cases hage : r.age with
  | none => rfl
  | some a =>
    simp only [Option.some_bind]
    rw [cutIdx_unfold]
    interval_cases k <;>
      split_ifs with h0 h1 h2 h3 h4 <;>
        simp_all [bucketLo, bucketHi] <;>
          (intro hlt; linarith)



/-- Inversion: a successful `none` bucket iteration means the bucket was
empty. -/
theorem ageEntry_ok_none (t : Table) (k : ℕ) (h : ageEntry t k = Except.ok none) :
    t.rows.filter (fun r => rowAgeGrp r == some k) = [] := by
  unfold ageEntry at h
  by_cases h0 : (t.rows.filter (fun r => rowAgeGrp r == some k)).length = 0
  · exact List.eq_nil_of_length_eq_zero h0
  · rw [if_neg h0] at h
    by_cases hs : t.schema.hasSurvived = false
    · rw [if_pos hs] at h
      exact Except.noConfusion h
    · rw [if_neg hs] at h
      by_cases hsv : ((t.rows.filter (fun r => rowAgeGrp r == some k)).filterMap
          (·.survived)).length = 0
      · rw [if_pos hsv] at h
        exact Except.noConfusion h
      · rw [if_neg hsv] at h
        exact Option.noConfusion (Except.ok.inj h)

/-- Inversion: a successful `some` bucket iteration pins every field of
the reported entry. -/
theorem ageEntry_ok_some (t : Table) (k : ℕ) (e : AgeEntry)
    (h : ageEntry t k = Except.ok (some e)) :
    t.rows.filter (fun r => rowAgeGrp r == some k) ≠ [] ∧
    e.group = agLabels.getD k "" ∧
    e.total = (t.rows.filter (fun r => rowAgeGrp r == some k)).length ∧
    e.survived
      = ((t.rows.filter (fun r => rowAgeGrp r == some k)).filterMap (·.survived)).sum ∧
    e.pct = pyRound
      (((((t.rows.filter (fun r => rowAgeGrp r == some k)).filterMap (·.survived)).sum : ℤ) : ℚ)
        / ((t.rows.filter (fun r => rowAgeGrp r == some k)).filterMap (·.survived)).length
        * 100) := by
  unfold ageEntry at h
  by_cases h0 : (t.rows.filter (fun r => rowAgeGrp r == some k)).length = 0
  · rw [if_pos h0] at h
    exact Option.noConfusion (Except.ok.inj h)
  · rw [if_neg h0] at h
    by_cases hs : t.schema.hasSurvived = false
    · rw [if_pos hs] at h
      exact Except.noConfusion h
    · rw [if_neg hs] at h
      by_cases hsv : ((t.rows.filter (fun r => rowAgeGrp r == some k)).filterMap
          (·.survived)).length = 0
      · rw [if_pos hsv] at h
        exact Except.noConfusion h
      · rw [if_neg hsv] at h
        have he := Option.some.inj (Except.ok.inj h)
        subst he
        refine ⟨?_, rfl, rfl, rfl, rfl⟩
        intro hnil
        exact h0 (by rw [hnil]; rfl)

/-- Inversion of the whole endpoint: success yields five successful bucket
iterations whose kept entries, in order, form the output. -/
theorem by_age_group_ok_parts (t : Table) (l : List AgeEntry)
    (hA : t.schema.hasAge = true) (h : by_age_group t = Except.ok l) :
    ∃ o0 o1 o2 o3 o4,
      ageEntry t 0 = Except.ok o0 ∧ ageEntry t 1 = Except.ok o1 ∧
      ageEntry t 2 = Except.ok o2 ∧ ageEntry t 3 = Except.ok o3 ∧
      ageEntry t 4 = Except.ok o4 ∧ l = [o0, o1, o2, o3, o4].filterMap id := by
  unfold by_age_group at h
  rw [if_neg (by simp [hA])] at h
  rcases h0 : ageEntry t 0 with e0 | o0
  · rw [h0] at h
    simp only [Except.bind] at h
    exact Except.noConfusion h
  rw [h0] at h
  simp only [Except.bind] at h
  rcases h1 : ageEntry t 1 with e1 | o1
  · rw [h1] at h
    simp only [Except.bind] at h
    exact Except.noConfusion h
  rw [h1] at h
  simp only [Except.bind] at h
  rcases h2 : ageEntry t 2 with e2 | o2
  · rw [h2] at h
    simp only [Except.bind] at h
    exact Except.noConfusion h
  rw [h2] at h
  simp only [Except.bind] at h
  rcases h3 : ageEntry t 3 with e3 | o3
  · rw [h3] at h
    simp only [Except.bind] at h
    exact Except.noConfusion h
  rw [h3] at h
  simp only [Except.bind] at h
  rcases h4 : ageEntry t 4 with e4 | o4
  · rw [h4] at h
    simp only [Except.bind] at h
    exact Except.noConfusion h
  rw [h4] at h
  simp only [Except.bind] at h
  exact ⟨o0, o1, o2, o3, o4, rfl, rfl, rfl, rfl, rfl, (Except.ok.inj h).symm⟩

/-- Kept entries of an option list project to a sublist of the label list
when each present entry carries its position's label. -/
theorem sublist_filterMap_group (f : AgeEntry → String) :
    ∀ (os : List (Option AgeEntry)) (labs : List String),
      List.Forall₂ (fun o lab => ∀ e, o = some e → f e = lab) os labs →
      ((os.filterMap id).map f).Sublist labs := by
  intro os labs hf
  induction hf with
  | nil => simp
  | @cons o lab os2 labs2 ho _ ih =>
    cases o with
    | none =>
      simp only [List.filterMap_cons, id]
      exact ih.cons lab
    | some e =>
      simp only [List.filterMap_cons, id]
      rw [List.map_cons, ho e rfl]
      exact ih.cons₂ lab

/-- The five bucket labels are pairwise distinct. -/
theorem agLabels_getD_inj : ∀ j, j < 5 → ∀ k, k < 5 →
    agLabels.getD j "" = agLabels.getD k "" → j = k := by decide

/-- C1 (amended): `byAgeGroup()` buckets non-null ages into LEFT-open
right-closed intervals (0,12] Child, (12,18] Teen, (18,35] Young Adult,
(35,60] Adult, (60,120] Senior — the pandas `pd.cut` default `right=True`,
not the claimed `[lo, hi)` intervals — and ages ≤ 0 or > 120 fall in no
bucket. Every returned entry carrying the label of bucket `k` reports that
interval's row count, the sum of its non-null Survived values, and the
round-half-even percentage over the non-null Survived count; its bucket is
non-empty (empty buckets are omitted), its label occurs in the output, and
the output labels are a sublist of the label list, so buckets appear in
order Child → Senior. -/
theorem claim_C1 (t : Table) (l : List AgeEntry) (k : ℕ) (e : AgeEntry)
    (hA : t.schema.hasAge = true) (hk : k < 5)
    (h : by_age_group t = Except.ok l)
    (he : e ∈ l) (hlab : e.group = agLabels.getD k "") :
    t.rows.filter (inBucketB k) ≠ [] ∧
    e.total = (t.rows.filter (inBucketB k)).length ∧
    e.survived = ((t.rows.filter (inBucketB k)).filterMap (·.survived)).sum ∧
    e.pct = pyRound (((((t.rows.filter (inBucketB k)).filterMap (·.survived)).sum : ℤ) : ℚ)
      / ((t.rows.filter (inBucketB k)).filterMap (·.survived)).length * 100) ∧
    (l.map (·.group)).Sublist agLabels ∧
    agLabels.getD k "" ∈ l.map (·.group) := by
  obtain ⟨o0, o1, o2, o3, o4, h0, h1, h2, h3, h4, rfl⟩ := by_age_group_ok_parts t l hA h
  obtain ⟨o, homem, hoeq⟩ := List.mem_filterMap.mp he
  have hosome : o = some e := hoeq
  subst hosome
  simp only [List.mem_cons, List.not_mem_nil, or_false] at homem
  have hkey : ageEntry t k = Except.ok (some e) := by
    rcases homem with hh | hh | hh | hh | hh
    · rw [← hh] at h0
      have hg := (ageEntry_ok_some t 0 e h0).2.1
      have hjk : (0 : ℕ) = k := agLabels_getD_inj 0 (by omega) k hk (hg.symm.trans hlab)
      rw [← hjk]
      exact h0
    · rw [← hh] at h1
      have hg := (ageEntry_ok_some t 1 e h1).2.1
      have hjk : (1 : ℕ) = k := agLabels_getD_inj 1 (by omega) k hk (hg.symm.trans hlab)
      rw [← hjk]
      exact h1
    · rw [← hh] at h2
      have hg := (ageEntry_ok_some t 2 e h2).2.1
      have hjk : (2 : ℕ) = k := agLabels_getD_inj 2 (by omega) k hk (hg.symm.trans hlab)
      rw [← hjk]
      exact h2
    · rw [← hh] at h3
      have hg := (ageEntry_ok_some t 3 e h3).2.1
      have hjk : (3 : ℕ) = k := agLabels_getD_inj 3 (by omega) k hk (hg.symm.trans hlab)
      rw [← hjk]
      exact h3
    · rw [← hh] at h4
      have hg := (ageEntry_ok_some t 4 e h4).2.1
      have hjk : (4 : ℕ) = k := agLabels_getD_inj 4 (by omega) k hk (hg.symm.trans hlab)
      rw [← hjk]
      exact h4
  have hfacts := ageEntry_ok_some t k e hkey
  rw [filter_bucket_eq t k hk] at hfacts
  refine ⟨hfacts.1, hfacts.2.2.1, hfacts.2.2.2.1, hfacts.2.2.2.2, ?_, ?_⟩
  · refine sublist_filterMap_group (·.group) _ _ ?_
    show List.Forall₂ _ [o0, o1, o2, o3, o4]
      ["Child (0–12)", "Teen (13–18)", "Young Adult (19–35)", "Adult (36–60)", "Senior (61+)"]
    refine List.Forall₂.cons ?_ (List.Forall₂.cons ?_ (List.Forall₂.cons ?_
      (List.Forall₂.cons ?_ (List.Forall₂.cons ?_ List.Forall₂.nil))))
    · intro e0 he0
      rw [he0] at h0
      exact (ageEntry_ok_some t 0 e0 h0).2.1
    · intro e1 he1
      rw [he1] at h1
      exact (ageEntry_ok_some t 1 e1 h1).2.1
    · intro e2 he2
      rw [he2] at h2
      exact (ageEntry_ok_some t 2 e2 h2).2.1
    · intro e3 he3
      rw [he3] at h3
      exact (ageEntry_ok_some t 3 e3 h3).2.1
    · intro e4 he4
      rw [he4] at h4
      exact (ageEntry_ok_some t 4 e4 h4).2.1
  · rw [← hlab]
    exact List.mem_map_of_mem (·.group) he

/-- Witness for C1: the table with a single 12-year-old survivor produces
exactly the Child bucket, whose entry satisfies all reported facts. -/
theorem claim_C1_witness :
    tAge12.rows.filter (inBucketB 0) ≠ [] ∧
    (((by_age_group tAge12).toOption.getD []).headD (AgeEntry.mk "" 0 0 0)).total
      = (tAge12.rows.filter (inBucketB 0)).length ∧
    (((by_age_group tAge12).toOption.getD []).headD (AgeEntry.mk "" 0 0 0)).survived
      = ((tAge12.rows.filter (inBucketB 0)).filterMap (·.survived)).sum ∧
    (((by_age_group tAge12).toOption.getD []).headD (AgeEntry.mk "" 0 0 0)).pct
      = pyRound (((((tAge12.rows.filter (inBucketB 0)).filterMap (·.survived)).sum : ℤ) : ℚ)
          / ((tAge12.rows.filter (inBucketB 0)).filterMap (·.survived)).length * 100) ∧
    ((((by_age_group tAge12).toOption.getD []).map (·.group)).Sublist agLabels) ∧
    agLabels.getD 0 "" ∈ ((by_age_group tAge12).toOption.getD []).map (·.group) :=
  claim_C1 tAge12 ((by_age_group tAge12).toOption.getD []) 0
    (((by_age_group tAge12).toOption.getD []).headD (AgeEntry.mk "" 0 0 0))
    rfl (by decide) rfl (List.Mem.head _) rfl

/-- C1 counterexample: a passenger aged exactly 12 lands in the Child
bucket — the claim's half-open `[12,18)` Teen interval would claim this
row — and a passenger aged exactly 0 lands in no bucket at all, though the
claim's `[0,12)` Child interval would include it. -/
theorem claim_C1_counterexample :
    (by_age_group tAge12).map (fun l => l.map (·.group)) = Except.ok ["Child (0–12)"] ∧
    (by_age_group tAge0).map (fun l => l.map (·.group)) = Except.ok [] :=
  ⟨rfl, rfl⟩

end TitanicApp
